import Mathlib

/-!
Verification development for the kanban-mcp repository: a shallow embedding
of the Planka HTTP client helpers, resource operations and aggregation
helpers, with theorems settling the specification claims about them.

Conventions of the embedding:
* JavaScript strings are embedded as Lean `String` where only equality
  matters, and as `List Char` where prefix/suffix structure is reasoned
  about (`startsWith`, `endsWith`, `trim`, `slice`).
* JavaScript timestamps (`Date.getTime()`, `Date.now()`) are embedded as
  `Int` milliseconds; `new Date(iso)` parsing is abstracted to the numeric
  timestamp it denotes.
* `undefined`/`null` fields are embedded as `Option`; JavaScript truthiness
  of an optional number (`x || d`, `if (x)`) is made explicit at each site.
* `async` operations are embedded as pure state-passing functions; the
  outcome of an upstream HTTP call is supplied by an explicit oracle
  argument where it is not determined by the modelled state.
-/

namespace Kanban

/-! ## Error taxonomy (src/unnamed/part_000, errors.ts) -/

/-- Parsed JSON body of an upstream error response, as consulted by
`createPlankaError`: the optional `message` field and the optional
`reset_at` field (embedded as the millisecond timestamp the ISO string
denotes). -/
structure ResponseBody where
  message : Option String
  reset_at : Option Int
deriving DecidableEq

/-- The closed set of taxonomy error kinds, one per error class of
errors.ts (`PlankaAuthenticationError`, `PlankaPermissionError`,
`PlankaResourceNotFoundError`, `PlankaConflictError`,
`PlankaValidationError`, `PlankaRateLimitError`, and the base
`PlankaError` for any other status). -/
inductive ErrorKind
  | authentication
  | permission
  | resourceNotFound
  | conflict
  | validation
  | rateLimit
  | generic
deriving DecidableEq

/-- The `response` payload attached to a constructed error: the subclass
constructors wrap a fresh `\x7bmessage\x7d` object, the rate-limit
constructor wraps `\x7bmessage, reset_at\x7d`, and the validation and
generic cases attach the raw upstream body unchanged. -/
inductive ErrResponse
  | wrapped (message : String)
  | rateLimitWrapped (message : String) (resetAt : Int)
  | raw (body : ResponseBody)
deriving DecidableEq

/-- A constructed taxonomy error: kind, message, HTTP status, attached
response payload, and (for rate-limit errors) the computed reset time. -/
structure PlankaError where
  kind : ErrorKind
  message : String
  status : Int
  response : ErrResponse
  resetAt : Option Int := none
deriving DecidableEq

/-- JavaScript `a || d` for an optional string `a`: the default is used
when `a` is `undefined` or the empty string (both falsy). -/
def jsOrStr (a : Option String) (d : String) : String :=
  match a with
  | some s => if s = "" then d else s
  | none => d

/-- Embedding of `createPlankaError(status, response)` from errors.ts.
`now` is `Date.now()` at the moment of the call (used only by the 429
fallback `Date.now() + 60000`).  Default-parameter fallbacks of the
constructors (`message = "Authentication failed"` etc.) apply only when
the argument is `undefined`, hence `Option.getD`; the `||` fallbacks of
the 404/409/422/default branches also treat the empty string as falsy,
hence `jsOrStr`. -/
def createPlankaError (status : Int) (response : ResponseBody) (now : Int) :
    PlankaError :=
  if status = 401 then
    let msg := response.message.getD "Authentication failed"
    { kind := .authentication, message := msg, status := 401,
      response := .wrapped msg }
  else if status = 403 then
    let msg := response.message.getD "Insufficient permissions"
    { kind := .permission, message := msg, status := 403,
      response := .wrapped msg }
  else if status = 404 then
    let resource := jsOrStr response.message "Resource"
    { kind := .resourceNotFound,
      message := "Resource not found: " ++ resource, status := 404,
      response := .wrapped (resource ++ " not found") }
  else if status = 409 then
    let msg := jsOrStr response.message "Conflict occurred"
    { kind := .conflict, message := msg, status := 409,
      response := .wrapped msg }
  else if status = 422 then
    { kind := .validation,
      message := jsOrStr response.message "Validation failed",
      status := 422, response := .raw response }
  else if status = 429 then
    let msg := response.message.getD "Rate limit exceeded"
    let reset := match response.reset_at with
      | some t => t
      | none => now + 60000
    { kind := .rateLimit, message := msg, status := 429,
      response := .rateLimitWrapped msg reset, resetAt := some reset }
  else
    { kind := .generic, message := jsOrStr response.message "Planka API error",
      status := status, response := .raw response }

/-! ## Default board population (src/operations/boards.ts) -/

/-- One entry of the `defaultLists` array inside `createDefaultLists`. -/
structure DefaultListSeed where
  name : String
  position : Nat
deriving DecidableEq

/-- The six default lists created for a fresh board, in creation order
(boards.ts, `createDefaultLists`). -/
def defaultLists : List DefaultListSeed :=
  [⟨"Backlog", 65535⟩, ⟨"To Do", 131070⟩, ⟨"In Progress", 196605⟩,
   ⟨"On Hold", 262140⟩, ⟨"Review", 327675⟩, ⟨"Done", 393210⟩]

/-- One entry of the label arrays inside `createDefaultLabels`. -/
structure DefaultLabelSeed where
  name : String
  color : String
  position : Nat
deriving DecidableEq

/-- The `priorityLabels` array of `createDefaultLabels` (boards.ts). -/
def priorityLabels : List DefaultLabelSeed :=
  [⟨"P0: Critical", "berry-red", 65535⟩,
   ⟨"P1: High", "red-burgundy", 131070⟩,
   ⟨"P2: Medium", "pumpkin-orange", 196605⟩,
   ⟨"P3: Low", "sunny-grass", 262140⟩]

/-- The `typeLabels` array of `createDefaultLabels` (boards.ts). -/
def typeLabels : List DefaultLabelSeed :=
  [⟨"Bug", "coral-green", 327675⟩,
   ⟨"Feature", "lagoon-blue", 393210⟩,
   ⟨"Enhancement", "bright-moss", 458745⟩,
   ⟨"Documentation", "light-orange", 524280⟩]

/-- The `statusLabels` array of `createDefaultLabels` (boards.ts). -/
def statusLabels : List DefaultLabelSeed :=
  [⟨"Blocked", "midnight-blue", 589815⟩,
   ⟨"Needs Info", "desert-sand", 655350⟩,
   ⟨"Ready", "egg-yellow", 720885⟩]

/-- The combined `defaultLabels` array of `createDefaultLabels`
(boards.ts): priority, then type, then status labels. -/
def defaultLabels : List DefaultLabelSeed :=
  priorityLabels ++ typeLabels ++ statusLabels

/-- One upstream call issued by the default-population phase of
`createBoard` after the board itself was created. -/
inductive BoardSetupStep
  | addMember (userId : String) (role : String)
  | createList (seed : DefaultListSeed)
  | createLabel (seed : DefaultLabelSeed)
deriving DecidableEq

/-- The sequence of upstream calls `createBoard` issues after a successful
board creation (boards.ts lines 203-226): an attempt to add the resolved
admin user as an `"editor"` member when `getAdminUserId()` resolved (a
`none` admin id only logs), then `createDefaultLists`, then
`createDefaultLabels`, each in array order. -/
def createBoardPostSteps (adminUserId : Option String) : List BoardSetupStep :=
  (match adminUserId with
   | some uid => [BoardSetupStep.addMember uid "editor"]
   | none => []) ++
  defaultLists.map BoardSetupStep.createList ++
  defaultLabels.map BoardSetupStep.createLabel

/-! ## Request URL normalization (src/unnamed/part_001, utils.ts) -/

/-- JavaScript `s.startsWith(p)` on the character sequences of the two
strings. -/
def jsStartsWith (s p : List Char) : Bool :=
  p.isPrefixOf s

/-- JavaScript `s.endsWith(p)` on the character sequences of the two
strings. -/
def jsEndsWith (s p : List Char) : Bool :=
  p.reverse.isPrefixOf s.reverse

/-- Embedding of the base-URL normalization in `plankaRequest` (utils.ts
lines 105-107): `baseUrl.endsWith("/api") ? baseUrl.slice(0, -4) :
baseUrl`.  `slice(0, -4)` keeps all but the last four characters. -/
def normalizeBaseUrl (baseUrl : List Char) : List Char :=
  if jsEndsWith baseUrl "/api".data then baseUrl.take (baseUrl.length - 4)
  else baseUrl

/-- Embedding of the path normalization in `plankaRequest` (utils.ts line
110): `path.startsWith("/api/") ? path : "/api/" + path`.  Since the
result always begins with `/`, `new URL(normalizedPath, normalizedBaseUrl)`
resolves it against only the origin of the base URL, so this is the full
path component of the built URL. -/
def normalizePath (path : List Char) : List Char :=
  if jsStartsWith path "/api/".data then path else "/api/".data ++ path

/-! ## Card stopwatch operations (src/operations/lists.ts, cards.ts part) -/

/-- The card `stopwatch` field: `startedAt` is the parsed start timestamp
in milliseconds when running (`null` when stopped), `total` the
accumulated seconds (possibly absent). -/
structure Stopwatch where
  startedAt : Option Int
  total : Option Int
deriving DecidableEq

/-- The slice of a Planka card that the stopwatch operations read and
write: the `stopwatch` field is `null`/absent or a stopwatch object. -/
structure Card where
  id : String
  stopwatch : Option Stopwatch
deriving DecidableEq

/-- Embedding of `startCardStopwatch` (cards.ts lines 400-431): reads the
card, builds `\x7bstartedAt: now, total: 0\x7d`, overwrites `total` with the
existing total when `card.stopwatch && card.stopwatch.total` is truthy
(i.e. the stopwatch exists and its total is a nonzero number), and PATCHes
the card with the new stopwatch object.  Returns the updated card. -/
def startCardStopwatch (card : Card) (now : Int) : Card :=
  let total : Int :=
    match card.stopwatch with
    | some sw =>
      match sw.total with
      | some t => if t ≠ 0 then t else 0
      | none => 0
    | none => 0
  { card with stopwatch := some ⟨some now, some total⟩ }

/-- Embedding of `stopCardStopwatch` (cards.ts lines 438-478): when the
card has no stopwatch or it is not running (`startedAt` null), returns the
card as is and issues no PATCH; otherwise adds
`Math.floor((now - startedAt) / 1000)` to `total || 0`, clears
`startedAt`, and PATCHes the new stopwatch.  The second component is the
PATCHed stopwatch body (`none` when no update request was issued). -/
def stopCardStopwatch (card : Card) (now : Int) : Card × Option Stopwatch :=
  match card.stopwatch with
  | none => (card, none)
  | some sw =>
    match sw.startedAt with
    | none => (card, none)
    | some startedAt =>
      let elapsedSeconds : Int := (now - startedAt).fdiv 1000
      let totalSeconds : Int := sw.total.getD 0 + elapsedSeconds
      let patched : Stopwatch := ⟨none, some totalSeconds⟩
      ({ card with stopwatch := some patched }, some patched)

/-- Embedding of `resetCardStopwatch` (cards.ts lines 534-551): PATCHes
`\x7bstopwatch: null\x7d`, clearing the whole stopwatch field. -/
def resetCardStopwatch (card : Card) : Card :=
  { card with stopwatch := none }

/-! ## Batch task creation (src/unnamed/part_002, tasks.ts, two variants) -/

/-- Input of one task in a batch request (`CreateTaskOptions`). -/
structure TaskInput where
  cardId : String
  name : String
  position : Option Int
deriving DecidableEq

/-- One entry of the per-item `results` array of `batchCreateTasks`
(interface `TaskResult`): either `\x7bsuccess: true, result\x7d` or
`\x7bsuccess: false, error: \x7bmessage\x7d\x7d`. -/
structure TaskItemResult (α : Type) where
  success : Bool
  result : Option α
  error : Option String
deriving DecidableEq

/-- One entry of the `errors` array of `batchCreateTasks` (interface
`TaskError`): the index of the failed input, the input itself, and the
error message. -/
structure TaskFailure where
  index : Nat
  task : TaskInput
  error : String
deriving DecidableEq

/-- The loop body shared by both `batchCreateTasks` variants, as a
recursion over the remaining inputs: `create i t` is the outcome of the
`createTask` call for the input at absolute index `i` (the effect oracle
of the embedding).  Produces the per-index `results` list and the `errors`
list in index order.  In the sequential variant both lists are pushed in
loop order; in the parallel variant `results[index] = ...` makes the
results array index-ordered as well, and the completion order of the
`errors` pushes is modelled as index order (only order-independent facts
are claimed about it). -/
def batchLoop (create : Nat → TaskInput → Except String α) :
    Nat → List TaskInput → List (TaskItemResult α) × List TaskFailure
  | _, [] => ([], [])
  | i, t :: rest =>
    let tail := batchLoop create (i + 1) rest
    match create i t with
    | .ok r => (⟨true, some r, none⟩ :: tail.1, tail.2)
    | .error e => (⟨false, none, some e⟩ :: tail.1, ⟨i, t, e⟩ :: tail.2)

/-- Return value of the sequential `batchCreateTasks` variant (tasks.ts
lines 142-211): `\x7bresults, successes, failures\x7d` where `successes`
maps the successful entries back to their `result` field. -/
structure SeqBatchResult (α : Type) where
  results : List (TaskItemResult α)
  successes : List (Option α)
  failures : List TaskFailure

/-- Embedding of the sequential `batchCreateTasks` variant. -/
def batchCreateTasksSeq (create : Nat → TaskInput → Except String α)
    (tasks : List TaskInput) : SeqBatchResult α :=
  let p := batchLoop create 0 tasks
  { results := p.1,
    successes := (p.1.filter (·.success)).map (·.result),
    failures := p.2 }

/-- The `summary` object of the parallel `batchCreateTasks` variant:
`\x7btotal, succeeded, failed, errors\x7d` where `errors` is `undefined`
when empty. -/
structure BatchSummary where
  total : Nat
  succeeded : Nat
  failed : Nat
  errors : Option (List TaskFailure)

/-- Return value of the parallel `batchCreateTasks` variant (tasks.ts
lines 351-404): `\x7bresults, summary\x7d`. -/
structure ParBatchResult (α : Type) where
  results : List (TaskItemResult α)
  summary : BatchSummary

/-- Embedding of the parallel `batchCreateTasks` variant. -/
def batchCreateTasksPar (create : Nat → TaskInput → Except String α)
    (tasks : List TaskInput) : ParBatchResult α :=
  let p := batchLoop create 0 tasks
  { results := p.1,
    summary :=
      { total := tasks.length,
        succeeded := (p.1.filter (·.success)).length,
        failed := p.2.length,
        errors := if p.2.length > 0 then some p.2 else none } }

/-! ## Workflow action mark_completed (src/unnamed/part_010) -/

/-- The slice of a task that `getTask`/`updateTask` read and write in the
`mark_completed` branch of `performWorkflowAction`. -/
structure WTask where
  id : String
  name : String
  position : Int
  isCompleted : Bool
deriving DecidableEq

/-- A PATCH body for `updateTask(id, options)`: only the present fields
are sent and applied. -/
structure TaskPatch where
  name : Option String
  position : Option Int
  isCompleted : Option Bool
deriving DecidableEq

/-- Field-wise application of an `updateTask` PATCH body to a task:
fields absent from the body are left unchanged. -/
def applyTaskPatch (t : WTask) (p : TaskPatch) : WTask :=
  { t with
    name := p.name.getD t.name,
    position := p.position.getD t.position,
    isCompleted := p.isCompleted.getD t.isCompleted }

/-- The PATCH body the `mark_completed` branch sends for a task (workflow
part_010 lines 113-119): `\x7bname: task.name, position: task.position\x7d`
and nothing else — in particular no `isCompleted` field, despite the
inline comment "update it with the same properties plus
isCompleted=true". -/
def markCompletedBody (t : WTask) : TaskPatch :=
  { name := some t.name, position := some t.position, isCompleted := none }

/-- Result of the `mark_completed` branch: the updated task store, the
card list id (unchanged: this branch returns before any `moveCard`), and
the reported `tasksCompleted` count. -/
structure MarkCompletedResult where
  tasks : List WTask
  cardListId : String
  tasksCompleted : Nat
deriving DecidableEq

/-- Embedding of the `mark_completed` branch of `performWorkflowAction`
(part_010 lines 104-141): with no `taskIds` or an empty list it throws
"No task IDs provided for mark_completed action"; otherwise it gets each
task (an unknown id makes the whole action fail) and PATCHes it with
`markCompletedBody`, never moving the card. -/
def markCompletedAction (tasks : List WTask) (cardListId : String)
    (taskIds : Option (List String)) : Except String MarkCompletedResult :=
  match taskIds with
  | none => .error "No task IDs provided for mark_completed action"
  | some ids =>
    if ids.length > 0 then
      if ids.all (fun i => tasks.any (fun t => t.id == i)) then
        .ok { tasks := tasks.map (fun t =>
                if ids.contains t.id then applyTaskPatch t (markCompletedBody t)
                else t),
              cardListId := cardListId,
              tasksCompleted := ids.length }
      else .error "Failed to get task"
    else .error "No task IDs provided for mark_completed action"

/-! ## Stopwatch duration formatting (src/operations/lists.ts, cards.ts
part, formatDuration) -/

/-- Whitespace as stripped by JavaScript `String.prototype.trim`.  The
only whitespace character `formatDuration` can produce is the plain
space, so the model strips spaces. -/
def isJsSpace (c : Char) : Bool :=
  c = ' '

/-- JavaScript `s.trim()` on a character sequence: strip whitespace from
both ends. -/
def jsTrim (l : List Char) : List Char :=
  ((l.dropWhile isJsSpace).reverse.dropWhile isJsSpace).reverse

/-- The decimal rendering of a natural number, as JavaScript string
interpolation renders the (integral, nonnegative) numbers occurring in
`formatDuration`. -/
def natChars (n : Nat) : List Char :=
  (Nat.repr n).data

/-- Embedding of `formatDuration(seconds)` (cards.ts lines 558-573):
hours, minutes and remaining seconds are split off; the hours piece is
rendered only when positive, the minutes piece when minutes or hours are
positive, the seconds piece always; the result is trimmed. -/
def formatDuration (seconds : Nat) : List Char :=
  let hours := seconds / 3600
  let minutes := (seconds % 3600) / 60
  let remainingSeconds := seconds % 60
  let result :=
    (if hours > 0 then natChars hours ++ ['h', ' '] else []) ++
    (if minutes > 0 ∨ hours > 0 then natChars minutes ++ ['m', ' '] else []) ++
    (natChars remainingSeconds ++ ['s'])
  jsTrim result

/-! ## Board summary percentages (src/tools/board-summary.ts) -/

/-- JavaScript `Math.round` as used on the nonnegative ratios of
board-summary.ts: round half toward positive infinity, i.e.
`Math.floor(x + 0.5)`. -/
def jsRound (x : ℚ) : ℤ :=
  ⌊x + 1 / 2⌋

/-- Per-card task completion figures of `getBoardSummary` (board-summary
lines 44-62): `taskDetails` is the fetched task list only when
`includeTaskDetails` is set (else the empty array); `completed` counts
the tasks with `isCompleted` truthy; the percentage is
`Math.round((completed / total) * 100)` when `total > 0` and `0`
otherwise.  Tasks are represented by their `isCompleted` flag. -/
def cardTaskStats (includeTaskDetails : Bool) (tasks : List Bool) :
    Nat × Nat × ℤ :=
  let taskDetails := if includeTaskDetails then tasks else []
  let completedTasks := (taskDetails.filter id).length
  let totalTasks := taskDetails.length
  let completionPercentage : ℤ :=
    if totalTasks > 0 then
      jsRound ((completedTasks : ℚ) / (totalTasks : ℚ) * 100)
    else 0
  (completedTasks, totalTasks, completionPercentage)

/-- JavaScript `s.toLowerCase()` as used on list names: lowercase the
string character by character. -/
def jsToLower (s : String) : String :=
  ⟨s.data.map Char.toLower⟩

/-- The slice of one summarized list that the board-wide stats read: its
name and its `cardCount`. -/
structure SummaryList where
  name : String
  cardCount : Nat
deriving DecidableEq

/-- The board-wide `stats.completionPercentage` of `getBoardSummary`
(board-summary lines 93-148): `totalCards` sums the card counts,
`doneList` is the first list whose lowercased name is `"done"`
(`doneList?.cardCount || 0` falls back to `0`), and the percentage is
`Math.round(doneCount / totalCards * 100)` when `totalCards > 0` and `0`
otherwise. -/
def boardCompletionPercentage (lists : List SummaryList) : ℤ :=
  let totalCards : ℕ := (lists.map (·.cardCount)).sum
  let doneCount : ℕ :=
    ((lists.find? (fun l => jsToLower l.name == "done")).map (·.cardCount)).getD 0
  if totalCards > 0 then
    jsRound ((doneCount : ℚ) / (totalCards : ℚ) * 100)
  else 0

/-! ## Comment listing (src/operations/comments.ts, getComments) -/

/-- One action of a card's action feed, with the fields of
`CommentActionSchema`.  The model represents every action with all schema
fields present and well-typed, so that conformance to
`CommentActionSchema` reduces to its `type: z.literal("commentCard")`
check — the discriminating part of the schema. -/
structure ActionItem where
  id : String
  type : String
  text : String
  cardId : String
  userId : String
  createdAt : String
  updatedAt : Option String
deriving DecidableEq

/-- The response shapes `getComments` distinguishes: the enveloped
`\x7bitems: [...]\x7d` object, a bare JSON array, or anything else. -/
inductive ActionsResponse
  | enveloped (items : List ActionItem)
  | bare (items : List ActionItem)
  | malformed
deriving DecidableEq

/-- Embedding of `getComments` (comments.ts lines 78-111) as a function of
the upstream response for `GET /api/cards/:id/actions`.  For the enveloped
shape, `CommentActionsResponseSchema.parse` succeeds only when every item
satisfies the `z.literal("commentCard")` type check; on success the items
are filtered to comment actions, on failure the fallback branch (the
response is not an array) throws and the outer catch returns the empty
array.  For the bare-array shape, `z.array(CommentActionSchema).parse`
likewise succeeds only on an all-comment feed, else the outer catch
returns the empty array. -/
def getComments (resp : ActionsResponse) : List ActionItem :=
  match resp with
  | .enveloped items =>
    if items.all (fun a => a.type == "commentCard") then
      items.filter (fun a => a.type == "commentCard")
    else []
  | .bare items =>
    if items.all (fun a => a.type == "commentCard") then
      items.filter (fun a => a.type == "commentCard")
    else []
  | .malformed => []

/-! ## Concrete instances used to exercise the theorems -/

/-- Outcome oracle for a batch of three task creations where only the
call at index 1 fails. -/
def exampleBatchOracle (i : Nat) (_ : TaskInput) : Except String Nat :=
  if i = 1 then Except.error "Failed to create task: Validation failed"
  else Except.ok 0

/-- A batch of three task inputs. -/
def exampleBatchTasks : List TaskInput :=
  [⟨"card1", "t1", none⟩, ⟨"card1", "", none⟩, ⟨"card1", "t3", none⟩]

/-- A comment action of a card's action feed. -/
def exampleCommentAction : ActionItem :=
  ⟨"a1", "commentCard", "hello", "card1", "u1", "2024-01-01", none⟩

/-- A non-comment action (a card move) of the same feed. -/
def exampleMoveAction : ActionItem :=
  ⟨"a2", "moveCard", "", "card1", "u1", "2024-01-02", none⟩

/-! # Theorems -/

/-- C1: createPlankaError produces exactly one taxonomy error mapped by
status (401 Authentication, 403 Permission, 404 ResourceNotFound, 409
Conflict, 422 Validation, 429 RateLimit, otherwise Generic); a 422
response with body \x7bmessage: "bad name"\x7d yields a Validation-kind
error with message exactly "bad name" and the original body attached as
raw response; a 429 error carries a reset time equal to the upstream
reset_at or, when absent, now + 60 seconds. -/
theorem claim1_error_taxonomy :
    (∀ (r : ResponseBody) (now : Int),
      (createPlankaError 401 r now).kind = ErrorKind.authentication ∧
      (createPlankaError 403 r now).kind = ErrorKind.permission ∧
      (createPlankaError 404 r now).kind = ErrorKind.resourceNotFound ∧
      (createPlankaError 409 r now).kind = ErrorKind.conflict ∧
      (createPlankaError 422 r now).kind = ErrorKind.validation ∧
      (createPlankaError 429 r now).kind = ErrorKind.rateLimit) ∧
    (∀ (s : Int) (r : ResponseBody) (now : Int),
      s ∉ ([401, 403, 404, 409, 422, 429] : List Int) →
      (createPlankaError s r now).kind = ErrorKind.generic) ∧
    (∀ now : Int,
      createPlankaError 422 ⟨some "bad name", none⟩ now =
        { kind := ErrorKind.validation, message := "bad name", status := 422,
          response := ErrResponse.raw ⟨some "bad name", none⟩ }) ∧
    (∀ (r : ResponseBody) (now : Int),
      (createPlankaError 429 r now).resetAt =
        some (r.reset_at.getD (now + 60000))) := by
  refine ⟨?_, ?_, ?_, ?_⟩
  · intro r now
    refine ⟨rfl, rfl, rfl, rfl, rfl, rfl⟩
  · intro s r now hs
    simp only [List.mem_cons, List.not_mem_nil, or_false] at hs
    push_neg at hs
    obtain ⟨h1, h2, h3, h4, h5, h6⟩ := hs
    simp [createPlankaError, h1, h2, h3, h4, h5, h6]
  · intro now
    rfl
  · intro r now
    cases h : r.reset_at <;> simp [createPlankaError, h]

/-- Witness for C1: the generic branch at status 500 (the only part of
the statement guarded by a hypothesis). -/
theorem claim1_error_taxonomy_witness :
    (createPlankaError 500 ⟨none, none⟩ 0).kind = ErrorKind.generic :=
  claim1_error_taxonomy.2.1 500 ⟨none, none⟩ 0 (by decide)

/-- Bridging lemma: the embedded startsWith agrees with list-prefix. -/
theorem jsStartsWith_iff {s p : List Char} :
    jsStartsWith s p = true ↔ p <+: s := by
  simp [jsStartsWith]

/-- Bridging lemma: the embedded endsWith agrees with list-suffix. -/
theorem jsEndsWith_iff {s p : List Char} :
    jsEndsWith s p = true ↔ p <:+ s := by
  simp [jsEndsWith]

/-- C2 counterexample: a path that carries `api/` without the leading
slash fails the `startsWith("/api/")` test, so the built URL contains a
doubled `/api/api/` segment — refuting the claim that no built URL ever
does. -/
theorem claim2_counterexample :
    normalizePath "api/users".data = "/api/api/users".data ∧
    jsStartsWith (normalizePath "api/users".data) "/api/api/".data = true := by
  constructor
  · rfl
  · decide

/-- C2 (amended): the base URL is trimmed of a single trailing `/api`
suffix, and the normalized path always begins with `/api/`; it never
begins with a doubled `/api/api/` provided the original path neither
begins with `api/` (without the leading slash) nor itself begins with
`/api/api/`. -/
theorem claim2_path_normalization (path baseUrl : List Char)
    (h1 : jsStartsWith path "api/".data = false)
    (h2 : jsStartsWith path "/api/api/".data = false)
    (hb : jsEndsWith baseUrl "/api".data = true) :
    jsStartsWith (normalizePath path) "/api/".data = true ∧
    jsStartsWith (normalizePath path) "/api/api/".data = false ∧
    normalizeBaseUrl baseUrl ++ "/api".data = baseUrl := by
  refine ⟨?_, ?_, ?_⟩
  · unfold normalizePath
    split
    · assumption
    · exact jsStartsWith_iff.mpr (List.prefix_append _ _)
  · unfold normalizePath
    split
    · exact h2
    · rw [Bool.eq_false_iff]
      intro hcontra
      have hpre : "/api/api/".data <+: "/api/".data ++ path :=
        jsStartsWith_iff.mp hcontra
      have hsplit : "/api/api/".data = "/api/".data ++ "api/".data := by decide
      rw [hsplit, List.prefix_append_right_inj] at hpre
      exact (Bool.eq_false_iff.mp h1) (jsStartsWith_iff.mpr hpre)
  · obtain ⟨t, ht⟩ := jsEndsWith_iff.mp hb
    unfold normalizeBaseUrl
    rw [if_pos hb, ← ht]
    have hlen : (t ++ "/api".data).length - 4 = t.length := by
      simp [List.length_append]
    rw [hlen, List.take_left]

/-- Witness for C2: a plain resource path against a base URL carrying a
trailing `/api`. -/
theorem claim2_path_normalization_witness :
    jsStartsWith (normalizePath "users".data) "/api/".data = true ∧
    jsStartsWith (normalizePath "users".data) "/api/api/".data = false ∧
    normalizeBaseUrl "http://localhost:3000/api".data ++ "/api".data =
      "http://localhost:3000/api".data :=
  claim2_path_normalization "users".data "http://localhost:3000/api".data
    (by decide) (by decide) (by decide)

/-- C3 counterexample: the default-population step creates eleven labels
(four priority + four type + three status), not eighteen as the claim
states. -/
theorem claim3_counterexample :
    defaultLabels.length = 11 ∧ ¬ defaultLabels.length = 18 ∧
    ((createBoardPostSteps (some "admin1")).filter (fun s =>
        match s with
        | BoardSetupStep.createLabel _ => true
        | _ => false)).length = 11 := by
  refine ⟨rfl, by decide, rfl⟩

/-- C3 (amended): after a successful createBoard, the default-population
step attempts to add the resolved admin identity as an "editor" member
and then sequentially creates six default lists named Backlog, To Do,
In Progress, On Hold, Review, Done at strictly increasing spaced
positions (65535, 131070, ...) and eleven default labels (four priority +
four type + three status) at similarly spaced positions. -/
theorem claim3_default_population (adminId : String) :
    createBoardPostSteps (some adminId) =
      BoardSetupStep.addMember adminId "editor" ::
        (defaultLists.map BoardSetupStep.createList ++
         defaultLabels.map BoardSetupStep.createLabel) ∧
    defaultLists.map (·.name) =
      ["Backlog", "To Do", "In Progress", "On Hold", "Review", "Done"] ∧
    defaultLists.map (·.position) =
      (List.range 6).map (fun k => (k + 1) * 65535) ∧
    List.Chain' (· < ·) (defaultLists.map (·.position)) ∧
    defaultLabels = priorityLabels ++ typeLabels ++ statusLabels ∧
    priorityLabels.length = 4 ∧ typeLabels.length = 4 ∧
    statusLabels.length = 3 ∧ defaultLabels.length = 11 ∧
    defaultLabels.map (·.position) =
      (List.range 11).map (fun k => (k + 1) * 65535) ∧
    List.Chain' (· < ·) (defaultLabels.map (·.position)) := by
  refine ⟨rfl, by decide, by decide, ?_, rfl, rfl, rfl, rfl, rfl,
    by decide, ?_⟩
  · simp [defaultLists, List.chain'_cons]
  · simp [defaultLabels, priorityLabels, typeLabels, statusLabels,
      List.chain'_cons]

/-- C4: startCardStopwatch preserves the existing accumulated total (0
when the card had no stopwatch) and sets startedAt to the current time;
stopCardStopwatch on a running stopwatch adds
floor((now - startedAt) / 1000) seconds to the total and clears startedAt
to null; resetCardStopwatch sets the whole stopwatch field to null. -/
theorem claim4_stopwatch_operations :
    (∀ (c : Card) (now : Int) (sw : Stopwatch) (t : Int),
      c.stopwatch = some sw → sw.total = some t →
      startCardStopwatch c now =
        { c with stopwatch := some ⟨some now, some t⟩ }) ∧
    (∀ (c : Card) (now : Int),
      c.stopwatch = none →
      startCardStopwatch c now =
        { c with stopwatch := some ⟨some now, some 0⟩ }) ∧
    (∀ (c : Card) (now : Int) (sw : Stopwatch) (s : Int),
      c.stopwatch = some sw → sw.startedAt = some s →
      stopCardStopwatch c now =
        ({ c with
            stopwatch := some ⟨none, some (sw.total.getD 0 + (now - s).fdiv 1000)⟩ },
         some ⟨none, some (sw.total.getD 0 + (now - s).fdiv 1000)⟩)) ∧
    (∀ c : Card, resetCardStopwatch c = { c with stopwatch := none }) := by
  refine ⟨?_, ?_, ?_, fun c => rfl⟩
  · intro c now sw t hc ht
    simp only [startCardStopwatch, hc, ht]
    split
    · rfl
    · next h =>
      simp only [ne_eq, not_not] at h
      rw [h]
  · intro c now hc
    simp [startCardStopwatch, hc]
  · intro c now sw s hc hs
    simp [stopCardStopwatch, hc, hs]

/-- Witness for C4: a card whose stopwatch has been running since
millisecond 5000 with 7 accumulated seconds, observed at millisecond
9500. -/
theorem claim4_stopwatch_operations_witness :
    startCardStopwatch ⟨"card1", some ⟨some 5000, some 7⟩⟩ 9500 =
      ⟨"card1", some ⟨some 9500, some 7⟩⟩ ∧
    stopCardStopwatch ⟨"card1", some ⟨some 5000, some 7⟩⟩ 9500 =
      (⟨"card1", some ⟨none, some 11⟩⟩, some ⟨none, some 11⟩) ∧
    resetCardStopwatch ⟨"card1", some ⟨some 5000, some 7⟩⟩ =
      ⟨"card1", none⟩ := by
  refine ⟨?_, ?_, claim4_stopwatch_operations.2.2.2 _⟩
  · exact claim4_stopwatch_operations.1 _ 9500 _ 7 rfl rfl
  · have h := claim4_stopwatch_operations.2.2.1
      ⟨"card1", some ⟨some 5000, some 7⟩⟩ 9500 ⟨some 5000, some 7⟩ 5000 rfl rfl
    simpa using h

/-- C9: stopCardStopwatch on a card whose stopwatch is absent or not
running issues no update request and returns the card unchanged, so
stopping twice in a row is equivalent to stopping once. -/
theorem claim9_stop_stopwatch_noop :
    (∀ (c : Card) (now : Int),
      (c.stopwatch = none ∨
        ∃ sw, c.stopwatch = some sw ∧ sw.startedAt = none) →
      stopCardStopwatch c now = (c, none)) ∧
    (∀ (c : Card) (n1 n2 : Int),
      stopCardStopwatch (stopCardStopwatch c n1).1 n2 =
        ((stopCardStopwatch c n1).1, none)) := by
  constructor
  · intro c now h
    rcases h with h | ⟨sw, hc, hs⟩
    · simp [stopCardStopwatch, h]
    · simp [stopCardStopwatch, hc, hs]
  · intro c n1 n2
    rcases hc : c.stopwatch with _ | sw
    · simp [stopCardStopwatch, hc]
    · rcases hs : sw.startedAt with _ | s
      · simp [stopCardStopwatch, hc, hs]
      · simp [stopCardStopwatch, hc, hs]

/-- Witness for C9: a stopped stopwatch (startedAt null) with 3
accumulated seconds is untouched by stop. -/
theorem claim9_stop_stopwatch_noop_witness :
    stopCardStopwatch ⟨"card1", some ⟨none, some 3⟩⟩ 9500 =
      (⟨"card1", some ⟨none, some 3⟩⟩, none) :=
  claim9_stop_stopwatch_noop.1 ⟨"card1", some ⟨none, some 3⟩⟩ 9500
    (Or.inr ⟨⟨none, some 3⟩, rfl, rfl⟩)

/-- Helper for C5: when exactly the createTask call at absolute index K
fails, the batch loop over the inputs starting at index i yields one
per-item result per input, one success per input except the one at K, and
an error list whose sole entry (when K falls in range) carries index K. -/
theorem batchLoop_spec {α : Type} (create : Nat → TaskInput → Except String α)
    (K : Nat) (hfail : ∀ t, ∃ e, create K t = Except.error e)
    (hok : ∀ j t, j ≠ K → ∃ r, create j t = Except.ok r) :
    ∀ (ts : List TaskInput) (i : Nat),
      (batchLoop create i ts).1.length = ts.length ∧
      ((batchLoop create i ts).1.filter (·.success)).length =
        ts.length - (if i ≤ K ∧ K < i + ts.length then 1 else 0) ∧
      (batchLoop create i ts).2.map (·.index) =
        (if i ≤ K ∧ K < i + ts.length then [K] else []) := by
  intro ts
  induction ts with
  | nil =>
    intro i
    refine ⟨rfl, by simp [batchLoop], by simp [batchLoop]⟩
  | cons t rest ih =>
    intro i
    obtain ⟨ih1, ih2, ih3⟩ := ih (i + 1)
    by_cases hi : i = K
    · subst hi
      obtain ⟨e, he⟩ := hfail t
      have hcond : ¬ (i + 1 ≤ i ∧ i < i + 1 + rest.length) := by omega
      rw [if_neg hcond] at ih2 ih3
      refine ⟨?_, ?_, ?_⟩ <;>
        simp only [batchLoop, he, List.length_cons, List.filter_cons,
          List.map_cons, ih1, ih2, ih3]
      · simp only [show (TaskItemResult.mk (α := α) false none
            (some e)).success = false from rfl, Bool.false_eq_true,
          if_false]
        rw [if_pos (by omega)]
        omega
      · rw [if_pos (by omega)]
    · obtain ⟨r, hr⟩ := hok i t hi
      have hcond : (i + 1 ≤ K ∧ K < i + 1 + rest.length) ↔
          (i ≤ K ∧ K < i + (rest.length + 1)) := by omega
      refine ⟨?_, ?_, ?_⟩ <;>
        simp only [batchLoop, hr, List.length_cons, List.filter_cons,
          List.map_cons, ih1, ih2, ih3]
      · simp only [show (TaskItemResult.mk (α := α) true (some r)
            none).success = true from rfl, if_true, List.length_cons, ih2]
        split
        · next h => rw [if_pos (hcond.mp h)]; omega
        · next h => rw [if_neg (fun hx => h (hcond.mpr hx))]; omega
      · split
        · next h => rw [if_pos (hcond.mp h)]
        · next h => rw [if_neg (fun hx => h (hcond.mpr hx))]

/-- C5: for N task inputs where exactly the item at index K fails, both
batchCreateTasks variants create each task independently: the per-item
result list has N entries, there are N-1 successes and exactly one
failure entry identifying index K, and the parallel variant's summary
reports total N, succeeded N-1, failed 1 with the error entry at index
K. -/
theorem claim5_batch_create_tasks {α : Type}
    (create : Nat → TaskInput → Except String α) (tasks : List TaskInput)
    (K : Nat) (hK : K < tasks.length)
    (hfail : ∀ t, ∃ e, create K t = Except.error e)
    (hok : ∀ j t, j ≠ K → ∃ r, create j t = Except.ok r) :
    (batchCreateTasksSeq create tasks).results.length = tasks.length ∧
    (batchCreateTasksSeq create tasks).successes.length = tasks.length - 1 ∧
    (batchCreateTasksSeq create tasks).failures.map (·.index) = [K] ∧
    (batchCreateTasksPar create tasks).results.length = tasks.length ∧
    (batchCreateTasksPar create tasks).summary.total = tasks.length ∧
    (batchCreateTasksPar create tasks).summary.succeeded =
      tasks.length - 1 ∧
    (batchCreateTasksPar create tasks).summary.failed = 1 ∧
    ∃ es, (batchCreateTasksPar create tasks).summary.errors = some es ∧
      es.map (·.index) = [K] := by
  obtain ⟨h1, h2, h3⟩ := batchLoop_spec create K hfail hok tasks 0
  have hcond : (0 ≤ K ∧ K < 0 + tasks.length) := ⟨Nat.zero_le K, by omega⟩
  rw [if_pos hcond] at h2 h3
  have hflen : (batchLoop create 0 tasks).2.length = 1 := by
    have := congrArg List.length h3
    simpa using this
  refine ⟨h1, ?_, h3, h1, rfl, h2, hflen, ?_⟩
  · simp [batchCreateTasksSeq, h2]
  · refine ⟨(batchLoop create 0 tasks).2, ?_, h3⟩
    simp [batchCreateTasksPar, hflen]

/-- Witness for C5: three task inputs whose middle creation (index 1)
fails. -/
theorem claim5_batch_create_tasks_witness :
    (batchCreateTasksSeq exampleBatchOracle exampleBatchTasks).results.length
      = 3 ∧
    (batchCreateTasksSeq exampleBatchOracle
      exampleBatchTasks).successes.length = 2 ∧
    (batchCreateTasksSeq exampleBatchOracle exampleBatchTasks).failures.map
      (·.index) = [1] ∧
    (batchCreateTasksPar exampleBatchOracle
      exampleBatchTasks).summary.succeeded = 2 ∧
    (batchCreateTasksPar exampleBatchOracle
      exampleBatchTasks).summary.failed = 1 := by
  have h := claim5_batch_create_tasks exampleBatchOracle exampleBatchTasks 1
    (by decide)
    (fun t => ⟨"Failed to create task: Validation failed", rfl⟩)
    (fun j t hj => ⟨0, by simp [exampleBatchOracle, hj]⟩)
  exact ⟨h.1, h.2.1, h.2.2.1, h.2.2.2.2.2.1, h.2.2.2.2.2.2.1⟩

/-- C6: the mark_completed branch does fail when no task IDs are given
and never moves the card, but it does not mark the specified tasks
complete: the updateTask PATCH it sends carries only the task's existing
name and position and no isCompleted field — contradicting the claim (and
the code's own inline comment "update it with the same properties plus
isCompleted=true"), an incomplete task stays incomplete. -/
theorem claim6_mark_completed_bug :
    markCompletedBody ⟨"t1", "task one", 65535, false⟩ =
      ⟨some "task one", some 65535, none⟩ ∧
    markCompletedAction [⟨"t1", "task one", 65535, false⟩] "list1"
      (some ["t1"]) =
      Except.ok ⟨[⟨"t1", "task one", 65535, false⟩], "list1", 1⟩ ∧
    markCompletedAction [⟨"t1", "task one", 65535, false⟩] "list1"
      (some []) =
      Except.error "No task IDs provided for mark_completed action" ∧
    markCompletedAction [⟨"t1", "task one", 65535, false⟩] "list1" none =
      Except.error "No task IDs provided for mark_completed action" := by
  refine ⟨rfl, ?_, rfl, rfl⟩
  rfl

/-- Every character pushed by the decimal digit loop is a digit. -/
theorem toDigitsCore_all_digits :
    ∀ (fuel n : Nat) (acc : List Char), (∀ c ∈ acc, c.isDigit = true) →
      ∀ c ∈ Nat.toDigitsCore 10 fuel n acc, c.isDigit = true := by
  intro fuel
  induction fuel with
  | zero =>
    intro n acc hacc c hc
    exact hacc c (by simpa [Nat.toDigitsCore] using hc)
  | succ f ih =>
    intro n acc hacc c hc
    have hd : (Nat.digitChar (n % 10)).isDigit = true := by
      have h10 : n % 10 < 10 := Nat.mod_lt _ (by omega)
      revert h10
      generalize n % 10 = m
      intro h10
      interval_cases m <;> decide
    have hacc2 : ∀ x ∈ Nat.digitChar (n % 10) :: acc, x.isDigit = true := by
      intro x hx
      rcases List.mem_cons.mp hx with hx | hx
      · exact hx ▸ hd
      · exact hacc x hx
    simp only [Nat.toDigitsCore] at hc
    split at hc
    · exact hacc2 c hc
    · exact ih (n / 10) _ hacc2 c hc

/-- The digit loop never shrinks its accumulator. -/
theorem toDigitsCore_length_le :
    ∀ (fuel n : Nat) (acc : List Char),
      acc.length ≤ (Nat.toDigitsCore 10 fuel n acc).length := by
  intro fuel
  induction fuel with
  | zero => intro n acc; simp [Nat.toDigitsCore]
  | succ f ih =>
    intro n acc
    simp only [Nat.toDigitsCore]
    split
    · simp
    · calc acc.length ≤ (Nat.digitChar (n % 10) :: acc).length := by simp
        _ ≤ _ := ih (n / 10) _

/-- Every character of a rendered natural number is a digit. -/
theorem natChars_all_digits (n : Nat) : ∀ c ∈ natChars n, c.isDigit = true := by
  intro c hc
  have h : natChars n = Nat.toDigitsCore 10 (n + 1) n [] := rfl
  exact toDigitsCore_all_digits (n + 1) n [] (by simp) c (h ▸ hc)

/-- A rendered natural number is never the empty string. -/
theorem natChars_ne_nil (n : Nat) : natChars n ≠ [] := by
  have h : natChars n = Nat.toDigitsCore 10 (n + 1) n [] := rfl
  rw [h]
  simp only [Nat.toDigitsCore]
  split
  · simp
  · intro hcontra
    have hlen := toDigitsCore_length_le n (n / 10) [Nat.digitChar (n % 10)]
    rw [hcontra] at hlen
    simp at hlen

/-- A digit character is none of the unit markers and is not whitespace. -/
theorem digit_char_facts (c : Char) (h : c.isDigit = true) :
    c ≠ 'h' ∧ c ≠ 'm' ∧ c ≠ 's' ∧ isJsSpace c = false := by
  have hsp : c ≠ ' ' := by rintro rfl; exact absurd h (by decide)
  refine ⟨?_, ?_, ?_, by simp [isJsSpace, hsp]⟩ <;>
    rintro rfl <;> exact absurd h (by decide)

/-- The unit marker h never occurs in a rendered number. -/
theorem h_not_mem_natChars (n : Nat) : 'h' ∉ natChars n := by
  intro hmem
  exact absurd (natChars_all_digits n 'h' hmem) (by decide)

/-- The unit marker m never occurs in a rendered number. -/
theorem m_not_mem_natChars (n : Nat) : 'm' ∉ natChars n := by
  intro hmem
  exact absurd (natChars_all_digits n 'm' hmem) (by decide)

/-- dropWhile is the identity when the head fails the predicate. -/
theorem dropWhile_eq_self_head (p : Char → Bool) (l : List Char)
    (h : ∀ c, l.head? = some c → p c = false) : l.dropWhile p = l := by
  cases l with
  | nil => rfl
  | cons a t => simp [List.dropWhile_cons, h a rfl]

/-- jsTrim is the identity on a list with non-space first and last
characters. -/
theorem jsTrim_eq_self (l : List Char)
    (h1 : ∀ c, l.head? = some c → isJsSpace c = false)
    (h2 : ∀ c, l.getLast? = some c → isJsSpace c = false) :
    jsTrim l = l := by
  unfold jsTrim
  rw [dropWhile_eq_self_head _ _ h1]
  rw [dropWhile_eq_self_head _ _ (fun c hc => h2 c (by
    rw [List.head?_reverse] at hc; exact hc))]
  exact List.reverse_reverse l

/-- The trim inside formatDuration strips nothing: the formatted string
is exactly the concatenation of the conditional hour piece, the
conditional minute piece and the unconditional second piece. -/
theorem formatDuration_eq (s : Nat) :
    formatDuration s =
      (if s / 3600 > 0 then natChars (s / 3600) ++ ['h', ' '] else []) ++
      (if s % 3600 / 60 > 0 ∨ s / 3600 > 0 then
        natChars (s % 3600 / 60) ++ ['m', ' '] else []) ++
      (natChars (s % 60) ++ ['s']) := by
  show jsTrim _ = _
  apply jsTrim_eq_self
  · intro c hc
    by_cases hH : s / 3600 > 0
    · obtain ⟨d, ds, hds⟩ := List.exists_cons_of_ne_nil
        (natChars_ne_nil (s / 3600))
      rw [if_pos hH, hds] at hc
      simp only [List.cons_append, List.head?_cons, Option.some_inj] at hc
      subst hc
      exact (digit_char_facts d (natChars_all_digits _ d
        (hds ▸ List.mem_cons_self d ds))).2.2.2
    · by_cases hM : s % 3600 / 60 > 0 ∨ s / 3600 > 0
      · obtain ⟨d, ds, hds⟩ := List.exists_cons_of_ne_nil
          (natChars_ne_nil (s % 3600 / 60))
        rw [if_neg hH, if_pos hM, hds] at hc
        simp only [List.nil_append, List.cons_append, List.head?_cons,
          Option.some_inj] at hc
        subst hc
        exact (digit_char_facts d (natChars_all_digits _ d
          (hds ▸ List.mem_cons_self d ds))).2.2.2
      · obtain ⟨d, ds, hds⟩ := List.exists_cons_of_ne_nil
          (natChars_ne_nil (s % 60))
        rw [if_neg hH, if_neg hM, hds] at hc
        simp only [List.nil_append, List.cons_append, List.head?_cons,
          Option.some_inj] at hc
        subst hc
        exact (digit_char_facts d (natChars_all_digits _ d
          (hds ▸ List.mem_cons_self d ds))).2.2.2
  · intro c hc
    rw [show (if s / 3600 > 0 then natChars (s / 3600) ++ ['h', ' ']
        else []) ++
      (if s % 3600 / 60 > 0 ∨ s / 3600 > 0 then
        natChars (s % 3600 / 60) ++ ['m', ' '] else []) ++
      (natChars (s % 60) ++ ['s']) =
      ((if s / 3600 > 0 then natChars (s / 3600) ++ ['h', ' ']
        else []) ++
      (if s % 3600 / 60 > 0 ∨ s / 3600 > 0 then
        natChars (s % 3600 / 60) ++ ['m', ' '] else []) ++
      natChars (s % 60)) ++ ['s'] by simp] at hc
    rw [List.getLast?_concat] at hc
    cases hc
    decide

/-- C7: the stopwatch duration formatter renders seconds as "XhYmZs":
the hours unit is present exactly when the duration reaches an hour, the
minutes unit exactly when it reaches a minute, and the seconds unit is
always shown last; 0 renders as "0s", 65 as "1m 5s", and 3605 carries an
hours unit. -/
theorem claim7_format_duration :
    (∀ s : Nat, ('h' ∈ formatDuration s ↔ 3600 ≤ s)) ∧
    (∀ s : Nat, ('m' ∈ formatDuration s ↔ 60 ≤ s)) ∧
    (∀ s : Nat, natChars (s % 60) ++ ['s'] <:+ formatDuration s) ∧
    formatDuration 0 = "0s".data ∧
    formatDuration 65 = "1m 5s".data ∧
    formatDuration 3605 = "1h 0m 5s".data := by
  have hDiv : ∀ s : Nat, 0 < s / 3600 ↔ 3600 ≤ s :=
    fun s => Nat.div_pos_iff (by omega)
  have hMin : ∀ s : Nat, (0 < s % 3600 / 60 ∨ 0 < s / 3600) ↔ 60 ≤ s := by
    intro s
    constructor
    · rintro (h | h)
      · have h1 : 60 ≤ s % 3600 := (Nat.div_pos_iff (by omega)).mp h
        have h2 : s % 3600 ≤ s := Nat.mod_le s 3600
        omega
      · have := (hDiv s).mp h
        omega
    · intro h
      by_cases h2 : 3600 ≤ s
      · exact Or.inr ((hDiv s).mpr h2)
      · refine Or.inl ?_
        have h3 : s % 3600 = s := Nat.mod_eq_of_lt (by omega)
        rw [h3]
        exact (Nat.div_pos_iff (by omega)).mpr h
  refine ⟨?_, ?_, ?_, by decide, by decide, by decide⟩
  · intro s
    rw [formatDuration_eq s]
    by_cases hH : s / 3600 > 0
    · have hs : 3600 ≤ s := (hDiv s).mp hH
      simp [hH, h_not_mem_natChars, hs]
    · have hs : ¬ 3600 ≤ s := fun hx => hH ((hDiv s).mpr hx)
      by_cases hM : s % 3600 / 60 > 0 <;>
        simp [hH, hM, h_not_mem_natChars, hs]
  · intro s
    rw [formatDuration_eq s]
    by_cases hH : s / 3600 > 0
    · have hs : 60 ≤ s := (hMin s).mp (Or.inr hH)
      simp [hH, m_not_mem_natChars, hs]
    · by_cases hM : s % 3600 / 60 > 0
      · have hs : 60 ≤ s := (hMin s).mp (Or.inl hM)
        simp [hH, hM, m_not_mem_natChars, hs]
      · have hs : ¬ 60 ≤ s := fun hx => by
          rcases (hMin s).mpr hx with h | h
          · exact hM h
          · exact hH h
        simp [hH, hM, m_not_mem_natChars, hs]
  · intro s
    rw [formatDuration_eq s]
    exact List.suffix_append _ _

/-- Helper for C8: rounding a percentage ratio of naturals equals an
exact natural division, so the computation is division-safe whenever the
denominator is positive. -/
theorem jsRound_ratio (c t : ℕ) (ht : 0 < t) :
    jsRound ((c : ℚ) / (t : ℚ) * 100) =
      (((200 * c + t) / (2 * t) : ℕ) : ℤ) := by
  unfold jsRound
  have ht0 : (t : ℚ) ≠ 0 := Nat.cast_ne_zero.mpr (by omega)
  have key : (c : ℚ) / (t : ℚ) * 100 + 1 / 2 =
      ((200 * c + t : ℕ) : ℚ) / ((2 * t : ℕ) : ℚ) := by
    push_cast
    field_simp
    ring
  rw [key]
  have hnn : (0 : ℚ) ≤ ((200 * c + t : ℕ) : ℚ) / ((2 * t : ℕ) : ℚ) := by
    positivity
  rw [← Int.toNat_of_nonneg (Int.floor_nonneg.2 hnn), Int.floor_toNat,
    Nat.floor_div_eq_div]

/-- C8: every completion percentage computed by getBoardSummary equals
the rounded ratio (expressed as the exact natural division
(200 c + t) / (2 t)) when the denominator t is positive, and is exactly 0
when the denominator is 0 — for a card with no fetched tasks the
per-card percentage is 0, and for a board with no cards the board-wide
completionPercentage is 0, so no division by zero ever occurs. -/
theorem claim8_completion_percentages :
    (∀ flag : Bool, (cardTaskStats flag []).2.2 = 0) ∧
    (∀ tasks : List Bool, (cardTaskStats false tasks).2.2 = 0) ∧
    (∀ (flag : Bool) (tasks : List Bool),
      0 < (cardTaskStats flag tasks).2.1 →
      (cardTaskStats flag tasks).2.2 =
        (((200 * (cardTaskStats flag tasks).1 +
            (cardTaskStats flag tasks).2.1) /
          (2 * (cardTaskStats flag tasks).2.1) : ℕ) : ℤ)) ∧
    (∀ lists : List SummaryList, (lists.map (·.cardCount)).sum = 0 →
      boardCompletionPercentage lists = 0) ∧
    (∀ lists : List SummaryList, 0 < (lists.map (·.cardCount)).sum →
      boardCompletionPercentage lists =
        (((200 * (((lists.find? (fun l => jsToLower l.name == "done")).map
              (·.cardCount)).getD 0) + (lists.map (·.cardCount)).sum) /
          (2 * (lists.map (·.cardCount)).sum) : ℕ) : ℤ)) := by
  refine ⟨?_, ?_, ?_, ?_, ?_⟩
  · intro flag
    cases flag <;> rfl
  · intro tasks
    rfl
  · intro flag tasks h
    cases flag
    · simp [cardTaskStats] at h
    · simp only [cardTaskStats, if_true] at h ⊢
      rw [if_pos h]
      exact jsRound_ratio _ _ h
  · intro lists h
    simp only [boardCompletionPercentage]
    rw [if_neg (by omega)]
  · intro lists h
    simp only [boardCompletionPercentage]
    rw [if_pos h]
    exact jsRound_ratio _ _ h

/-- Witness for C8: a card with two of three tasks complete rounds to
67 percent, and a board with two of four cards in the Done list is at
50 percent. -/
theorem claim8_completion_percentages_witness :
    0 < (cardTaskStats true [true, false, true]).2.1 ∧
    (cardTaskStats true [true, false, true]).2.2 = 67 ∧
    0 < (([⟨"Done", 2⟩, ⟨"Backlog", 2⟩] : List SummaryList).map
      (·.cardCount)).sum ∧
    boardCompletionPercentage [⟨"Done", 2⟩, ⟨"Backlog", 2⟩] = 50 := by
  refine ⟨by decide, ?_, by decide, ?_⟩
  · have h := claim8_completion_percentages.2.2.1 true [true, false, true]
      (by decide)
    simpa using h
  · have h := claim8_completion_percentages.2.2.2.2
      [⟨"Done", 2⟩, ⟨"Backlog", 2⟩] (by decide)
    rw [h]
    decide

/-- C10 counterexample: a feed holding one comment and one action of
another type fails the schema parse (the `z.literal("commentCard")`
check), so getComments returns the empty list rather than the filtered
comment — the non-comment action is not "filtered out", the whole feed is
discarded; the same happens for the bare-array shape. -/
theorem claim10_counterexample :
    getComments (ActionsResponse.enveloped
      [exampleCommentAction, exampleMoveAction]) = [] ∧
    getComments (ActionsResponse.enveloped
      [exampleCommentAction, exampleMoveAction]) ≠ [exampleCommentAction] ∧
    getComments (ActionsResponse.bare
      [exampleCommentAction, exampleMoveAction]) = [] := by
  refine ⟨rfl, ?_, rfl⟩
  decide

/-- C10 (amended): every element of the list returned by getComments has
type "commentCard"; a feed consisting only of commentCard actions is
returned in full (the filter removes nothing), while a feed containing
any action of another type fails schema validation and getComments
returns the empty list instead — in both the enveloped and bare-array
response shapes. -/
theorem claim10_get_comments :
    (∀ (resp : ActionsResponse) (a : ActionItem),
      a ∈ getComments resp → a.type = "commentCard") ∧
    (∀ items : List ActionItem, (∀ a ∈ items, a.type = "commentCard") →
      getComments (ActionsResponse.enveloped items) = items ∧
      getComments (ActionsResponse.bare items) = items) ∧
    (∀ items : List ActionItem, (∃ a ∈ items, a.type ≠ "commentCard") →
      getComments (ActionsResponse.enveloped items) = [] ∧
      getComments (ActionsResponse.bare items) = []) := by
  refine ⟨?_, ?_, ?_⟩
  · intro resp a ha
    cases resp with
    | enveloped items =>
      simp only [getComments] at ha
      split at ha
      · exact beq_iff_eq.mp (List.mem_filter.mp ha).2
      · simp at ha
    | bare items =>
      simp only [getComments] at ha
      split at ha
      · exact beq_iff_eq.mp (List.mem_filter.mp ha).2
      · simp at ha
    | malformed => simp [getComments] at ha
  · intro items h
    have hall : items.all (fun a => a.type == "commentCard") = true := by
      rw [List.all_eq_true]
      intro a ha
      exact beq_iff_eq.mpr (h a ha)
    have hfilter : items.filter (fun a => a.type == "commentCard") = items :=
      List.filter_eq_self.mpr (fun a ha => beq_iff_eq.mpr (h a ha))
    constructor <;> simp [getComments, hall, hfilter]
  · intro items h
    obtain ⟨a, ha, hne⟩ := h
    have hall : items.all (fun a => a.type == "commentCard") = false := by
      rw [List.all_eq_false]
      exact ⟨a, ha, by simpa using hne⟩
    constructor <;> simp [getComments, hall]

/-- Witness for C10: a pure comment feed is returned whole; a mixed feed
yields the empty list. -/
theorem claim10_get_comments_witness :
    getComments (ActionsResponse.enveloped [exampleCommentAction]) =
      [exampleCommentAction] ∧
    getComments (ActionsResponse.bare
      [exampleCommentAction, exampleMoveAction]) = [] := by
  refine ⟨?_, ?_⟩
  · exact (claim10_get_comments.2.1 [exampleCommentAction]
      (by intro a ha; simp at ha; rw [ha]; rfl)).1
  · exact (claim10_get_comments.2.2 [exampleCommentAction, exampleMoveAction]
      ⟨exampleMoveAction, by simp, by decide⟩).2

end Kanban
